import Mathlib

/-!
# Verification of the `storage.js` compact-encoding subsystem

Shallow embedding of `src/js/storage.js` (the Radix codec, the Names /
Tracks / Images tables and the per-user stats record) together with
proofs and refutations of the specification's claims about it.

Conventions of the embedding:
* JavaScript numbers that are always used as non-negative integers in
  range (ids, sizes, play counts, glyph codes) are `Nat`; the codec
  inputs, which may be fractional or non-finite, are a dedicated
  `JSNum` type over `ℚ`.
* A thrown JavaScript exception is `Except.error msg`.
* A JavaScript object used as a string-keyed dictionary is an
  association list updated by `setAssoc` (property update keeps the
  original position, a new property is appended — JS insertion order).
* `Radix.toNumber` computes in `ℤ`, because `charCodeAt(0) - 48` can be
  negative on arbitrary input text.
-/

deriving instance DecidableEq for Except

/-- `Radix._length`: the alphabet size of the codec. -/
def K : Nat := 10240

/-- `Radix._offset`: glyphs start at char code 48 (`'0'`). -/
def OFFSET : Nat := 48

/-- One glyph: `String.fromCharCode(rixit + Radix._offset)`. -/
def glyph (d : Nat) : Char := Char.ofNat (d + OFFSET)

/-- The digit-extraction loop of `Radix.fromNumber`, most significant
digit first, with explicit fuel (the loop runs at most `log K n + 1`
times, so fuel `n` always suffices; the fuel-0 branch returns the glyph
the loop body would emit so that the value is total). The do-while shape
means `0` encodes as `[0]`, one glyph. -/
def digitsGo : Nat → Nat → List Nat
  | 0, n => [n % K]
  | fuel + 1, n => if n < K then [n] else digitsGo fuel (n / K) ++ [n % K]

/-- The base-`K` digits of `n`, most significant first, as produced by
the loop in `Radix.fromNumber`. -/
def radixDigits (n : Nat) : List Nat := digitsGo n n

/-- The natural (unpadded) glyph width of `n` under the codec. -/
def naturalWidth (n : Nat) : Nat := (radixDigits n).length

/-- A JavaScript number as seen by `Radix.fromNumber`: NaN, one of the
infinities, or a finite value (modelled exactly as a rational). -/
inductive JSNum where
  | nan
  | posInf
  | negInf
  | num (q : ℚ)

/-- The width-overflow message of `Radix.fromNumber` (built after
`padding = padding || 1`, so it shows the defaulted padding). -/
def overflowMsg (n p : Nat) : String :=
  "Radix result of " ++ toString n ++ " is longer then padding of " ++ toString p

/-- Core of `Radix.fromNumber` on an already-floored non-negative
integer: emit the digit glyphs, default falsy padding to 1, throw when
the natural width exceeds the padding, else left-pad with `'0'`
(char code 48, the zero glyph). -/
def Radix.fromNumberNat (n : Nat) (padding : Nat) : Except String (List Char) :=
  let result := (radixDigits n).map glyph
  let p := if padding = 0 then 1 else padding
  if p < result.length then
    .error (overflowMsg n p)
  else
    .ok (List.replicate (p - result.length) '0' ++ result)

/-- `Radix.fromNumber(number, padding)`. Guards in source order:
`isNaN(Number(number))` and `number == Number.POSITIVE_INFINITY` throw
"The input is not valid"; `number < 0` (so also `-Infinity`) throws
"Can't represent negative numbers now"; then `Math.floor` is applied —
a fractional input is floored, not rejected. A padding of 0 stands for
an absent/falsy argument (`padding || 1`). -/
def Radix.fromNumber : JSNum → Nat → Except String (List Char)
  | .nan, _ => .error "The input is not valid"
  | .posInf, _ => .error "The input is not valid"
  | .negInf, _ => .error "Can't represent negative numbers now"
  | .num q, padding =>
    if q < 0 then .error "Can't represent negative numbers now"
    else Radix.fromNumberNat (Int.toNat ⌊q⌋) padding

/-- One step of the `Radix.toNumber` loop:
`result * Radix._length + charCodeAt(0) - Radix._offset`, in `ℤ`. -/
def radixStep (r : Int) (c : Char) : Int :=
  r * (K : Int) + (c.toNat : Int) - (OFFSET : Int)

/-- `Radix.toNumber(string)`: fold the step over the characters in
order (the `for in` loop visits array indices ascending). -/
def Radix.toNumber (s : List Char) : Int :=
  s.foldl radixStep 0

theorem K_pos : 0 < K := by decide

/-- Every digit the loop emits is `< K`. -/
theorem digitsGo_lt (fuel n : Nat) : ∀ d ∈ digitsGo fuel n, d < K := by
  induction fuel generalizing n with
  | zero =>
    intro d hd
    simp only [digitsGo, List.mem_singleton] at hd
    exact hd ▸ Nat.mod_lt _ K_pos
  | succ fuel ih =>
    intro d hd
    simp only [digitsGo] at hd
    split at hd
    · next h => simp only [List.mem_singleton] at hd; exact hd ▸ h
    · rcases List.mem_append.1 hd with h1 | h2
      · exact ih _ _ h1
      · simp only [List.mem_singleton] at h2
        exact h2 ▸ Nat.mod_lt _ K_pos

theorem radixDigits_lt (n : Nat) : ∀ d ∈ radixDigits n, d < K :=
  digitsGo_lt n n

/-- The digit list is never empty (the loop is do-while). -/
theorem digitsGo_ne_nil (fuel n : Nat) : digitsGo fuel n ≠ [] := by
  cases fuel with
  | zero => simp [digitsGo]
  | succ fuel =>
    simp only [digitsGo]
    split
    · simp
    · simp

theorem radixDigits_ne_nil (n : Nat) : radixDigits n ≠ [] :=
  digitsGo_ne_nil n n

/-- Glyph codes stay below the surrogate range, so `Char.ofNat` is
faithful: the stored code of `glyph d` is `d + 48` whenever `d < K`. -/
theorem glyph_toNat (d : Nat) (h : d < K) : (glyph d).toNat = d + OFFSET := by
  have hv : (d + OFFSET).isValidChar := by
    left
    have : d + OFFSET < 10288 := by
      have : d < 10240 := h
      simp only [OFFSET]
      omega
    omega
  simp only [glyph, Char.ofNat, dif_pos hv]
  simp [Char.ofNatAux, Char.toNat, UInt32.toNat, BitVec.toNat_ofNatLt]

/-- Folding the decode step over the glyphs of `digitsGo fuel n`
starting from accumulator `a` yields `a * K ^ width + n`, provided the
fuel dominates `n` (`n < K ^ (fuel + 1)`). -/
theorem foldl_digitsGo (fuel : Nat) : ∀ (n : Nat) (a : Int), n < K ^ (fuel + 1) →
    List.foldl radixStep a ((digitsGo fuel n).map glyph)
      = a * (K : Int) ^ (digitsGo fuel n).length + n := by
  induction fuel with
  | zero =>
    intro n a h
    rw [pow_one] at h
    have hmod : n % K = n := Nat.mod_eq_of_lt h
    simp only [digitsGo, hmod, List.map_cons, List.map_nil, List.foldl_cons,
      List.foldl_nil, List.length_singleton, radixStep, glyph_toNat _ h]
    push_cast
    ring
  | succ fuel ih =>
    intro n a h
    by_cases hn : n < K
    · simp only [digitsGo, if_pos hn, List.map_cons, List.map_nil, List.foldl_cons,
        List.foldl_nil, List.length_singleton, radixStep, glyph_toNat _ hn]
      push_cast
      ring
    · have hdiv : n / K < K ^ (fuel + 1) := by
        rw [Nat.div_lt_iff_lt_mul K_pos]
        calc n < K ^ (fuel + 2) := h
          _ = K ^ (fuel + 1) * K := by ring
      simp only [digitsGo, if_neg hn, List.map_append, List.map_cons, List.map_nil,
        List.foldl_append, List.foldl_cons, List.foldl_nil, List.length_append,
        List.length_singleton]
      rw [ih (n / K) a hdiv]
      simp only [radixStep, glyph_toNat _ (Nat.mod_lt _ K_pos)]
      have h0 : K * (n / K) + n % K = n := Nat.div_add_mod n K
      have hsplit : (K : Int) * ((n / K : Nat) : Int) + ((n % K : Nat) : Int) = (n : Int) := by
        exact_mod_cast congrArg (fun m : Nat => (m : Int)) h0
      rw [Nat.cast_add, pow_succ]
      linear_combination hsplit

/-- Fuel `n` always suffices: `n < K ^ (n + 1)`. -/
theorem fuel_sufficient (n : Nat) : n < K ^ (n + 1) :=
  lt_of_lt_of_le (Nat.lt_pow_self (by norm_num [K]) n)
    (Nat.pow_le_pow_right (by norm_num [K]) (Nat.le_succ n))

/-- Decoding the natural digit glyphs of `n` gives back `n`. -/
theorem toNumber_digits (n : Nat) :
    Radix.toNumber ((radixDigits n).map glyph) = n := by
  have := foldl_digitsGo n n 0 (fuel_sufficient n)
  simpa [Radix.toNumber, radixDigits] using this

/-- Left-padding with the `'0'` glyph does not change the decoded value:
the pad prefix folds `0` to `0`. -/
theorem toNumber_pad (k : Nat) (t : List Char) :
    Radix.toNumber (List.replicate k '0' ++ t) = Radix.toNumber t := by
  induction k with
  | zero => simp
  | succ k ih =>
    have hstep : radixStep 0 '0' = 0 := by decide
    simpa [List.replicate_succ, Radix.toNumber, hstep] using ih

theorem naturalWidth_pos (n : Nat) : 0 < naturalWidth n :=
  List.length_pos.2 (radixDigits_ne_nil n)

/-- On a non-negative integer with admissible padding, `fromNumber`
succeeds and returns the `'0'`-padded digit glyphs. -/
theorem fromNumberNat_ok (n w : Nat) (hw : naturalWidth n ≤ max w 1) :
    Radix.fromNumberNat n w
      = .ok (List.replicate (max w 1 - naturalWidth n) '0' ++ (radixDigits n).map glyph) := by
  have hlen : ((radixDigits n).map glyph).length = naturalWidth n := by
    simp [naturalWidth]
  have hp : (if w = 0 then 1 else w) = max w 1 := by
    rcases Nat.eq_zero_or_pos w with h | h
    · simp [h]
    · rw [if_neg (Nat.pos_iff_ne_zero.1 h)]
      omega
  simp only [Radix.fromNumberNat, hlen, hp, if_neg (not_lt.2 hw)]

/-- C1. For every integer `n` in `[0, K³)` and every width `w` at least
the natural glyph-width of `n`, `Radix.toNumber (Radix.fromNumber n w)`
returns `n`: left-padding with the zero glyph never changes the decoded
value. -/
theorem radix_roundtrip (n w : Nat) (hn : n < K ^ 3) (hw : naturalWidth n ≤ w) :
    (Radix.fromNumber (.num (n : ℚ)) w).map Radix.toNumber = .ok (n : Int) := by
  have hq : ¬((n : ℚ) < 0) := not_lt.2 (by positivity)
  have hfloor : Int.toNat ⌊(n : ℚ)⌋ = n := by
    rw [Int.floor_natCast]
    rfl
  have hw1 : naturalWidth n ≤ max w 1 := le_trans hw (le_max_left _ _)
  rw [Radix.fromNumber, if_neg hq, hfloor, fromNumberNat_ok n w hw1]
  rw [Except.map, toNumber_pad, toNumber_digits]

/-- Witness for C1 at `n = 3`, `w = 2`: `fromNumber 3 2 = "03"` decodes
back to `3`. -/
theorem radix_roundtrip_witness :
    (Radix.fromNumber (.num (3 : ℚ)) 2).map Radix.toNumber = .ok (3 : Int) :=
  radix_roundtrip 3 2 (by norm_num [K]) (by decide)

/-- One glyph suffices for `n < K` (the loop exits after one pass). -/
theorem digitsGo_small (fuel n : Nat) (h : n < K) : digitsGo fuel n = [n] := by
  cases fuel with
  | zero => rw [digitsGo, Nat.mod_eq_of_lt h]
  | succ fuel => rw [digitsGo, if_pos h]

theorem radixDigits_small (n : Nat) (h : n < K) : radixDigits n = [n] :=
  digitsGo_small n n h

/-- Exactly two glyphs for `K ≤ n < K²`. -/
theorem radixDigits_two (n : Nat) (h1 : K ≤ n) (h2 : n < K * K) :
    radixDigits n = [n / K, n % K] := by
  rcases n with _ | m
  · exact absurd h1 (by decide)
  · rw [radixDigits, digitsGo, if_neg (not_lt.2 h1)]
    have hq : (m + 1) / K < K := by
      rw [Nat.div_lt_iff_lt_mul K_pos]
      exact h2
    rw [digitsGo_small _ _ hq]
    rfl

/-- `fromNumberNat` throws the overflow error when the natural width
exceeds the (falsy-defaulted) padding. -/
theorem fromNumberNat_err (n w : Nat) (h : max w 1 < naturalWidth n) :
    Radix.fromNumberNat n w = .error (overflowMsg n (max w 1)) := by
  have hlen : ((radixDigits n).map glyph).length = naturalWidth n := by
    simp [naturalWidth]
  have hp : (if w = 0 then 1 else w) = max w 1 := by
    rcases Nat.eq_zero_or_pos w with h0 | h0
    · simp [h0]
    · rw [if_neg (Nat.pos_iff_ne_zero.1 h0)]
      omega
  simp only [Radix.fromNumberNat, hlen, hp, if_pos h]

/-- C4 counterexample. The claim says `fromNumber(n, w)` fails whenever
the natural width of `n` exceeds `w`; but at `n = 0`, `w = 0` the code
defaults the falsy padding to 1 and happily returns `"0"`, although the
natural width (1) exceeds `w` (0). -/
theorem fromNumber_width_cex :
    Radix.fromNumber (.num (0 : ℚ)) 0 = .ok ['0'] ∧ 0 < naturalWidth 0 := by
  constructor
  · have h0 : ¬((0 : ℚ) < 0) := by norm_num
    rw [Radix.fromNumber, if_neg h0]
    decide
  · exact naturalWidth_pos 0

/-- C4 (amended). With the falsy padding default made explicit —
`w = 0` is treated as width 1 — `fromNumber n w` fails with the
width-overflow error exactly when the natural width of `n` exceeds
`max w 1`, and otherwise returns a string of length
`max w (natural width of n)`. -/
theorem fromNumber_width (n w : Nat) :
    (max w 1 < naturalWidth n →
      Radix.fromNumber (.num (n : ℚ)) w = .error (overflowMsg n (max w 1)))
    ∧ (naturalWidth n ≤ max w 1 →
      (Radix.fromNumber (.num (n : ℚ)) w).map List.length = .ok (max w (naturalWidth n))) := by
  have hq : ¬((n : ℚ) < 0) := not_lt.2 (by positivity)
  have hfloor : Int.toNat ⌊(n : ℚ)⌋ = n := by
    rw [Int.floor_natCast]
    rfl
  constructor
  · intro h
    rw [Radix.fromNumber, if_neg hq, hfloor, fromNumberNat_err n w h]
  · intro h
    rw [Radix.fromNumber, if_neg hq, hfloor, fromNumberNat_ok n w h]
    have hpos := naturalWidth_pos n
    simp only [Except.map, List.length_append, List.length_replicate, List.length_map]
    have : (radixDigits n).length = naturalWidth n := rfl
    rw [this]
    congr 1
    omega

/-- Witness for C4 (amended): `fromNumber 10240 1` (natural width 2)
overflows, and `fromNumber 3 5` returns 5 glyphs. -/
theorem fromNumber_width_witness :
    Radix.fromNumber (.num (10240 : ℚ)) 1 = .error (overflowMsg 10240 1)
      ∧ (Radix.fromNumber (.num (3 : ℚ)) 5).map List.length = .ok 5 := by
  have h2 : naturalWidth 10240 = 2 := by
    rw [naturalWidth, radixDigits_two 10240 (by norm_num [K]) (by norm_num [K])]
    rfl
  have h1 : naturalWidth 3 = 1 := by
    rw [naturalWidth, radixDigits_small 3 (by norm_num [K])]
    rfl
  constructor
  · exact (fromNumber_width 10240 1).1 (by omega)
  · have := (fromNumber_width 3 5).2 (by omega)
    rwa [h1] at this

/-- C5 counterexample. The claim says `fromNumber` rejects any input
that is not a valid integer; but the fractional input `3/2` is floored
and silently encoded as the single glyph `"1"`. -/
theorem fromNumber_fractional_cex :
    Radix.fromNumber (.num (3 / 2 : ℚ)) 1 = .ok ['1'] := by
  have hq : ¬((3 / 2 : ℚ) < 0) := by norm_num
  have hfloor : Int.toNat ⌊(3 / 2 : ℚ)⌋ = 1 := by norm_num
  rw [Radix.fromNumber, if_neg hq, hfloor]
  decide

/-- C5 (amended). `fromNumber` fails with the invalid-input error for
NaN and `+∞`, and with the cannot-represent-negative error for any
negative input (including `-∞`); but a non-negative fractional input is
not rejected — it is floored and encoded. -/
theorem fromNumber_invalid (w : Nat) (q : ℚ) :
    Radix.fromNumber .nan w = .error "The input is not valid"
    ∧ Radix.fromNumber .posInf w = .error "The input is not valid"
    ∧ Radix.fromNumber .negInf w = .error "Can't represent negative numbers now"
    ∧ (q < 0 → Radix.fromNumber (.num q) w = .error "Can't represent negative numbers now")
    ∧ (0 ≤ q → Radix.fromNumber (.num q) w = Radix.fromNumberNat (Int.toNat ⌊q⌋) w) := by
  refine ⟨rfl, rfl, rfl, fun h => ?_, fun h => ?_⟩
  · rw [Radix.fromNumber, if_pos h]
  · rw [Radix.fromNumber, if_neg (not_lt.2 h)]

/-- Witness for C5 (amended) at `q = -1` and `q = 3/2`, `w = 1`. -/
theorem fromNumber_invalid_witness :
    Radix.fromNumber (.num (-1 : ℚ)) 1 = .error "Can't represent negative numbers now"
    ∧ Radix.fromNumber (.num (3 / 2 : ℚ)) 1 = Radix.fromNumberNat (Int.toNat ⌊(3 / 2 : ℚ)⌋) 1 :=
  ⟨(fromNumber_invalid 1 (-1)).2.2.2.1 (by norm_num),
   (fromNumber_invalid 1 (3 / 2)).2.2.2.2 (by norm_num)⟩

/-!
## Dictionaries

JavaScript object property assignment: updating an existing key keeps
its position, a new key is appended (string-key insertion order).
-/

/-- `obj[k] = v` on a string-keyed JS object. -/
def setAssoc {α β : Type} [BEq α] (l : List (α × β)) (k : α) (v : β) : List (α × β) :=
  if l.any (fun p => p.1 == k) then
    l.map (fun p => if p.1 == k then (k, v) else p)
  else
    l ++ [(k, v)]

/-- `obj[k]` on a string-keyed JS object (`undefined` is `none`). -/
def getAssoc {α β : Type} [BEq α] (l : List (α × β)) (k : α) : Option β :=
  (l.find? (fun p => p.1 == k)).map (fun p => p.2)

/-!
## `Names` (the NameTable)

`var Names = extend(Data, {...})` in `storage.js`: a string-interning
table with a name→id object and an id→name array.
-/

/-- The two indexes of `Names`. -/
structure NamesState where
  string : List (String × Nat)
  number : List String
deriving DecidableEq

/-- The freshly-extended table (both indexes empty). -/
def Names.empty : NamesState := ⟨[], []⟩

/-- `Names.add(name)`: `id = this.number.length`; insert into both
indexes; return the id. -/
def Names.add (st : NamesState) (name : String) : NamesState × Nat :=
  let id := st.number.length
  ({ string := setAssoc st.string name id, number := st.number ++ [name] }, id)

/-- `Data.lookup` with a string key: `this.string[key]`. -/
def Names.lookupStr (st : NamesState) (name : String) : Option Nat :=
  getAssoc st.string name

/-- `Data.lookup` with a numeric key: `this.number[key]`. -/
def Names.lookupNum (st : NamesState) (id : Nat) : Option String :=
  st.number.get? id

/-- `Names._compress()`: `this.number.join(newline)`. -/
def Names.compress (st : NamesState) : String :=
  String.intercalate "\n" st.number

/-- `String.prototype.split` with a one-character separator (what
`text.split(newline)` does): split into groups between separator
occurrences; the empty string yields one empty group. -/
def splitOnChar (sep : Char) : List Char → List (List Char)
  | [] => [[]]
  | c :: rest =>
    match splitOnChar sep rest with
    | [] => []
    | g :: gs => if c = sep then [] :: g :: gs else (c :: g) :: gs

/-- `Names._decompress(text)`: split on newlines (a falsy/empty input
yields the empty array), rebuild both indexes, and return whether the
rebuilt count matches the split count. -/
def Names.decompress (text : String) : NamesState × Bool :=
  let array := if text = "" then [] else (splitOnChar '\n' text.data).map String.mk
  let st := array.foldl
    (fun (st : NamesState) nm =>
      { string := setAssoc st.string nm st.number.length, number := st.number ++ [nm] })
    ⟨[], []⟩
  (st, st.number.length == array.length)

/-- C6. `add "Radiohead"` then `add "Björk"` on the empty NameTable:
`compress` yields the two names newline-joined in insertion order, and
`decompress` of that string restores both indexes, with
`lookup "Radiohead" = 0` and `lookup 1 = "Björk"`. -/
theorem names_roundtrip_example :
    Names.compress (Names.add (Names.add Names.empty "Radiohead").1 "Björk").1
        = "Radiohead\nBjörk"
    ∧ Names.lookupStr (Names.decompress "Radiohead\nBjörk").1 "Radiohead" = some 0
    ∧ Names.lookupNum (Names.decompress "Radiohead\nBjörk").1 1 = some "Björk" := by
  refine ⟨?_, ?_, ?_⟩ <;> rfl

/-!
## `Tracks` (the TrackTable)

`var Tracks = extend(Data, {...})`: triples of name ids, indexed by
dense id and by the comma-joined triple string.
-/

/-- The two indexes of `Tracks`. Decoded components live in `ℤ`,
because `decompressNumber` of arbitrary text can be negative. -/
structure TracksState where
  string : List (String × Nat)
  number : List (List Int)
deriving DecidableEq

def Tracks.empty : TracksState := ⟨[], []⟩

/-- The comma-joined key of a track triple (`track.join(comma)`). -/
def trackKey (track : List Int) : String :=
  String.intercalate "," (track.map toString)

/-- `Tracks.addString(track)`: `this.string[track] = id` executes, then
`this.number[i] = track.split(comma)` reads the undeclared variable `i`
and throws a ReferenceError. The mutation made before the throw
persists, the numeric index is never touched, and no id is returned. -/
def Tracks.addString (st : TracksState) (track : String) : TracksState × Except String Nat :=
  ({ st with string := setAssoc st.string track st.number.length },
   .error "ReferenceError: i is not defined")

/-- A JS regex line terminator, which `.` does NOT match:
U+000A LF, U+000D CR, U+2028 LS, U+2029 PS. -/
def isLineTerminator (c : Char) : Bool :=
  c = '\n' || c = '\r' || c = Char.ofNat 0x2028 || c = Char.ofNat 0x2029

/-- `text.match(/.{2}/g)`: the global regex scan. At each position a
match needs the next TWO characters to both be non-line-terminators
(JS `.` excludes line terminators); on a match the scan advances past
both characters, on a failure it advances one character. A trailing
unpaired character never matches, and a scan with no match at all is
`null`, which the caller turns into `[]`. -/
def chunks2 : List Char → List (List Char)
  | a :: b :: rest =>
    if !isLineTerminator a && !isLineTerminator b then
      [a, b] :: chunks2 rest
    else
      chunks2 (b :: rest)
  | _ => []

/-- The chunk array `Tracks._decompress` builds from its input
(`text && text.match(/.{2}/g) || []`). -/
def trackChunks (text : String) : List (List Char) :=
  if text = "" then [] else chunks2 text.data

/-- The decoding loop of `Tracks._decompress`: consume three chunks per
track (`array[trackIndex]`, `array[++trackIndex]`, `array[++trackIndex]`).
When one or two chunks remain, `array[++trackIndex]` is `undefined` and
`decompressNumber(undefined)` throws (`undefined.split` is a TypeError). -/
def Tracks.decodeGroups : List (List Char) → Except String (List (List Int))
  | [] => .ok []
  | a :: b :: c :: rest =>
    (Tracks.decodeGroups rest).map
      (fun ts => [Radix.toNumber a, Radix.toNumber b, Radix.toNumber c] :: ts)
  | _ => .error "TypeError: Cannot read properties of undefined"

/-- Rebuild the two indexes from the decoded triples
(`this.string[track.join(comma)] = this.number.length` then push). -/
def Tracks.build (tracks : List (List Int)) : TracksState :=
  tracks.foldl
    (fun (st : TracksState) t =>
      { string := setAssoc st.string (trackKey t) st.number.length,
        number := st.number ++ [t] })
    ⟨[], []⟩

/-- `Tracks._decompress(text)`: chunk, decode in groups of three,
rebuild both indexes, and return `this.number.length == array.length` —
the track count compared against the CHUNK count (not the group count). -/
def Tracks.decompress (text : String) : Except String (TracksState × Bool) :=
  let array := trackChunks text
  (Tracks.decodeGroups array).map
    (fun tracks => (Tracks.build tracks, tracks.length == array.length))

/-- C3 counterexample. On `"000102"` (three 2-glyph chunks, one chunk
group) `_decompress` reconstructs exactly one track — id count 1 equals
chunk-group count 1 — yet returns `false`, because the code compares
the track count against the chunk count (3). The claim's
"returns true exactly when reconstructed ids = chunk groups" is false. -/
theorem tracks_decompress_cex :
    Tracks.decompress "000102"
        = .ok (⟨[("0,1,2", 0)], [[0, 1, 2]]⟩, false)
      ∧ (trackChunks "000102").length = 3 := by
  constructor <;> rfl

theorem setAssoc_cons_ne {α β : Type} [BEq α] (p : α × β) (l : List (α × β)) (k : α) (v : β)
    (hp : (p.1 == k) = false) :
    setAssoc (p :: l) k v = p :: setAssoc l k v := by
  by_cases ha : l.any (fun q => q.1 == k)
  · simp [setAssoc, hp, ha]
  · simp [setAssoc, hp, ha]

theorem getAssoc_cons_ne {α β : Type} [BEq α] (p : α × β) (l : List (α × β)) (k : α)
    (hp : (p.1 == k) = false) :
    getAssoc (p :: l) k = getAssoc l k := by
  simp [getAssoc, List.find?_cons, hp]

/-- After `obj[k] = v`, reading `obj[k]` gives `v`. -/
theorem getAssoc_setAssoc {α β : Type} [BEq α] [LawfulBEq α]
    (l : List (α × β)) (k : α) (v : β) :
    getAssoc (setAssoc l k v) k = some v := by
  induction l with
  | nil => simp [setAssoc, getAssoc]
  | cons p l ih =>
    by_cases hp : (p.1 == k) = true
    · have : setAssoc (p :: l) k v
          = (k, v) :: l.map (fun q => if q.1 == k then (k, v) else q) := by
        simp [setAssoc, List.any_cons, hp]
      rw [this, getAssoc]
      simp
    · rw [setAssoc_cons_ne p l k v (by simpa using hp),
        getAssoc_cons_ne p _ k (by simpa using hp)]
      exact ih

/-- C10. For every table state and every input string,
`Tracks.addString` throws (it reads the undeclared loop index `i`), and
it does so after the key was inserted into the string→id index but
before anything was written to the id→triple index — a failed call
leaves the two indexes out of sync. -/
theorem tracks_addString_throws (st : TracksState) (track : String) :
    (Tracks.addString st track).2 = .error "ReferenceError: i is not defined"
    ∧ getAssoc (Tracks.addString st track).1.string track = some st.number.length
    ∧ (Tracks.addString st track).1.number = st.number :=
  ⟨rfl, getAssoc_setAssoc st.string track st.number.length, rfl⟩

/-- A successful group decode consumes exactly three chunks per track. -/
theorem decodeGroups_length (l : List (List Char)) :
    ∀ ts, Tracks.decodeGroups l = .ok ts → 3 * ts.length = l.length := by
  induction l using Tracks.decodeGroups.induct with
  | case1 =>
    intro ts h
    simp only [Tracks.decodeGroups] at h
    cases h
    rfl
  | case2 a b c rest ih =>
    intro ts h
    simp only [Tracks.decodeGroups, Except.map] at h
    cases hrest : Tracks.decodeGroups rest with
    | error e => rw [hrest] at h; cases h
    | ok ts' =>
      rw [hrest] at h
      cases h
      have := ih ts' hrest
      simp only [List.length_cons]
      omega
  | case3 l h1 h2 =>
    intro ts h
    rcases l with _ | ⟨a, _ | ⟨b, _ | ⟨c, rest⟩⟩⟩
    · exact absurd rfl h1
    · simp only [Tracks.decodeGroups] at h; cases h
    · simp only [Tracks.decodeGroups] at h; cases h
    · exact absurd rfl (h2 a b c rest)

/-- The rebuilt numeric index is exactly the decoded triple list. -/
theorem tracks_build_number (ts : List (List Int)) :
    (Tracks.build ts).number = ts := by
  suffices h : ∀ st : TracksState,
      (ts.foldl
        (fun (st : TracksState) t =>
          { string := setAssoc st.string (trackKey t) st.number.length,
            number := st.number ++ [t] }) st).number = st.number ++ ts by
    simpa [Tracks.build] using h ⟨[], []⟩
  induction ts with
  | nil => intro st; simp
  | cons t ts ih =>
    intro st
    simp only [List.foldl_cons, ih]
    simp

/-- C3 (amended). `_decompress` splits into 2-glyph chunks, groups
every 3 chunks into one triple and rebuilds both indexes; but the value
it returns compares the reconstructed id count with the CHUNK count
(three per group), not the group count — so whenever it returns at all,
it returns `true` exactly for input with no chunks. -/
theorem tracks_decompress_return (text : String) (st : TracksState) (b : Bool)
    (h : Tracks.decompress text = .ok (st, b)) :
    3 * st.number.length = (trackChunks text).length
    ∧ (b = true ↔ (trackChunks text).length = 0) := by
  simp only [Tracks.decompress] at h
  cases hdec : Tracks.decodeGroups (trackChunks text) with
  | error e => rw [hdec] at h; cases h
  | ok ts =>
    rw [hdec] at h
    simp only [Except.map] at h
    cases h
    have hlen := decodeGroups_length _ ts hdec
    rw [tracks_build_number]
    constructor
    · exact hlen
    · constructor
      · intro hb
        have hb' : ts.length = (trackChunks text).length := by simpa using hb
        omega
      · intro h0
        have hts : ts.length = 0 := by omega
        simp [hts, h0]

/-- Witness for C3 (amended) at the input `"000102"`. -/
theorem tracks_decompress_return_witness :
    3 * (TracksState.mk [("0,1,2", 0)] [[0, 1, 2]]).number.length
        = (trackChunks "000102").length
    ∧ (false = true ↔ (trackChunks "000102").length = 0) :=
  tracks_decompress_return "000102" ⟨[("0,1,2", 0)], [[0, 1, 2]]⟩ false (by rfl)

/-!
## `Images` (the ImageTable; instances `ArtistImages` and `AlbumImages`)

`var Images = extend(Data, {...})`. Size and type enums, a sparse
numeric index and a name index. When a reference does not resolve, the
JS code stores under the property literally named `"undefined"`; this
is modelled by the dedicated `numberUndef` / `stringUndef` slots.
-/

/-- One stored image record. `id` is `none` when the name→id lookup
failed and the JS value is `undefined`. -/
structure ImageObj where
  id : Option Nat
  size : Nat
  hash : String
  type : Nat
deriving DecidableEq

/-- The indexes of an `Images` table instance. -/
structure ImagesState where
  number : List (Nat × ImageObj)
  numberUndef : Option ImageObj
  string : List (String × ImageObj)
  stringUndef : Option ImageObj
deriving DecidableEq

def Images.empty : ImagesState := ⟨[], none, [], none⟩

/-- `Images._compressSizes`. -/
def compressSizes (size : Nat) : Option Nat :=
  match size with
  | 34 => some 1
  | 64 => some 2
  | 126 => some 3
  | 252 => some 4
  | 300 => some 5
  | _ => none

/-- `Images._compressTypes`. -/
def compressTypes (ty : String) : Option Nat :=
  match ty with
  | "png" => some 10
  | "jpg" => some 20
  | "jpeg" => some 30
  | "gif" => some 40
  | _ => none

/-- `Images._types`; an unknown code concatenates as `"undefined"`. -/
def typesStr (code : Nat) : String :=
  match code with
  | 10 => "png"
  | 20 => "jpg"
  | 30 => "jpeg"
  | 40 => "gif"
  | _ => "undefined"

/-- `ArtistImages._sizes` labels, as they appear in a URL. -/
def artistSizes (code : Nat) : String :=
  match code with
  | 1 => "34"
  | 2 => "64"
  | 3 => "126"
  | 4 => "252"
  | 5 => "300x300"
  | _ => "undefined"

/-- `AlbumImages._sizes` labels: the 34 and 64 classes carry an `s`. -/
def albumSizes (code : Nat) : String :=
  match code with
  | 1 => "34s"
  | 2 => "64s"
  | 3 => "126"
  | 4 => "252"
  | 5 => "300x300"
  | _ => "undefined"

/-- `Images._url`. -/
def imagesBaseUrl : String := "http://userserve-ak.last.fm/serve/"

/-- `Images.add(id, size, hash, type)`: resolve the id/name pair
through `Names` (with NO failure check on the result), validate the
type then the size enum, and store the record under the resolved
numeric id and name — `undefined` results are stored under the
"undefined" slots. Returns the (possibly undefined) id. -/
def Images.add (names : NamesState) (st : ImagesState) (key : Sum Nat String)
    (size : Nat) (hash : String) (ty : String) :
    ImagesState × Except String (Option Nat) :=
  let idName : Option Nat × Option String :=
    match key with
    | .inl n => (some n, Names.lookupNum names n)
    | .inr s => (Names.lookupStr names s, some s)
  match compressTypes ty with
  | none => (st, .error ("Url's extension type isn't recognized: " ++ ty))
  | some tc =>
    match compressSizes size with
    | none => (st, .error ("Url's size isn't recognized: " ++ toString size))
    | some sc =>
      let obj : ImageObj := ⟨idName.1, sc, hash, tc⟩
      let st1 :=
        match idName.1 with
        | some n => { st with number := setAssoc st.number n obj }
        | none => { st with numberUndef := some obj }
      let st2 :=
        match idName.2 with
        | some s => { st1 with string := setAssoc st1.string s obj }
        | none => { st1 with stringUndef := some obj }
      (st2, .ok idName.1)

/-- `Images.lookup(key)` for a numeric key: read the record and build
`this._url + this._sizes[obj.size] + '/' + obj.hash + '.' + this._types[obj.type]`
with the table-specific size-label set (`none` models the TypeError on
a missing record). -/
def Images.lookupNum (sizes : Nat → String) (st : ImagesState) (k : Nat) : Option String :=
  (getAssoc st.number k).map
    (fun obj => imagesBaseUrl ++ sizes obj.size ++ "/" ++ obj.hash ++ "." ++ typesStr obj.type)

/-- C9. After `add(0, 64, "ab12cd", "jpg")`, `lookup(0)` on the artist
table yields a URL built with the artist-side "64" label and the ".jpg"
suffix, while the album table renders the very same stored record with
its distinct "64s" label — size-label sets are per-table. -/
theorem images_size_labels :
    Images.lookupNum artistSizes
        (Images.add Names.empty Images.empty (.inl 0) 64 "ab12cd" "jpg").1 0
      = some (imagesBaseUrl ++ "64" ++ "/" ++ "ab12cd" ++ "." ++ "jpg")
    ∧ Images.lookupNum albumSizes
        (Images.add Names.empty Images.empty (.inl 0) 64 "ab12cd" "jpg").1 0
      = some (imagesBaseUrl ++ "64s" ++ "/" ++ "ab12cd" ++ "." ++ "jpg") := by
  constructor <;> rfl

/-- C7 counterexample. With `"Nobody"` absent from the (empty)
NameTable and a recognized size and type, `add` does NOT fail: it
returns the undefined id and stores a full record under the name index
(and under the numeric index's "undefined" slot). -/
theorem images_add_unknown_name_cex :
    Images.add Names.empty Images.empty (.inr "Nobody") 64 "ab12cd" "jpg"
      = (⟨[], some ⟨none, 2, "ab12cd", 20⟩,
          [("Nobody", ⟨none, 2, "ab12cd", 20⟩)], none⟩, .ok none) := by
  rfl

/-- C7 (amended). For every name absent from the NameTable, `add` with
a recognized size and type does not raise an unresolvable-reference
error: it succeeds, returning the undefined id, and stores a record
with an undefined id under the name in the string index and in the
"undefined" slot of the numeric index. -/
theorem images_add_unknown_name (names : NamesState) (st : ImagesState)
    (s : String) (size : Nat) (hash ty : String) (tc sc : Nat)
    (hn : Names.lookupStr names s = none)
    (ht : compressTypes ty = some tc) (hs : compressSizes size = some sc) :
    Images.add names st (.inr s) size hash ty
      = ({ st with
            numberUndef := some (ImageObj.mk none sc hash tc),
            string := setAssoc st.string s (ImageObj.mk none sc hash tc) },
         .ok none) := by
  simp only [Images.add, hn, ht, hs]

/-- Witness for C7 (amended) at the concrete unknown name `"Ghost"`. -/
theorem images_add_unknown_name_witness :
    Images.add Names.empty Images.empty (.inr "Ghost") 34 "ff00" "png"
      = ({ Images.empty with
            numberUndef := some (ImageObj.mk none 1 "ff00" 10),
            string := setAssoc Images.empty.string "Ghost" (ImageObj.mk none 1 "ff00" 10) },
         .ok none) :=
  images_add_unknown_name Names.empty Images.empty "Ghost" 34 "ff00" "png" 10 1 rfl rfl rfl

/-!
## `User` (the UserStats record)

`function User(username)` with `stats": year → month → trackId →
playCount` and `loved`. The `for in` loops enumerate the integer-like
keys in ascending numeric order, which the model's association lists
mirror. `compressNumber(x)`/`compressNumber(x, 2)` on the non-negative
integer keys and values of the model is exactly `Radix.fromNumberNat`
(see `fromNumber_invalid`).
-/

/-- A user record: `stats[year][month][trackId] = playCount`, plus the
loved trackId list. -/
structure UserState where
  stats : List (Nat × List (Nat × List (Nat × Nat)))
  loved : List Nat
deriving DecidableEq

/-- One month line of `User._compress`:
`compressNumber(month)` then, per track,
`compressNumber(track, 2) + compressNumber(plays)` appended. -/
def User.compressMonth (month : Nat) (tracks : List (Nat × Nat)) :
    Except String (List Char) := do
  let mc ← Radix.fromNumberNat month 0
  tracks.foldlM
    (fun acc tp => do
      let tc ← Radix.fromNumberNat tp.1 2
      let pc ← Radix.fromNumberNat tp.2 0
      pure (acc ++ tc ++ pc))
    mc

/-- `User._compress()`: the first array entry is
`this.loved.join(blank)` — the loved ids joined as DECIMAL strings with
no radix encoding (the site is marked `// TODO: Loved tracks`); then,
per year, a line with the year's glyphs followed by one line per month;
all joined with newlines. -/
def User.compress (u : UserState) : Except String String := do
  let lovedLine : String := String.join (u.loved.map (fun n => toString n))
  let lines ← u.stats.foldlM
    (fun (acc : List String) ym => do
      let yc ← Radix.fromNumberNat ym.1 0
      ym.2.foldlM
        (fun (acc2 : List String) mt => do
          let line ← User.compressMonth mt.1 mt.2
          pure (acc2 ++ [String.mk line]))
        (acc ++ [String.mk yc]))
    [lovedLine]
  pure (String.intercalate "\n" lines)

/-- `User._decompress(text)`: the very first statement of the `var`
block evaluates `test && text.split(newline)`, and `test` is an
undeclared identifier — every call throws a ReferenceError before
touching any state (`this.stats = {}` on the next line is dead code, as
is the whole parsing loop and the local `loved`). -/
def User.decompress (u : UserState) (text : String) : Except String UserState :=
  .error "ReferenceError: test is not defined"

/-- C2. On the spec's own example (`stats = {2020: {3: {5: 2}}}`,
`loved = [7, 9]`) `compress` produces a string, but `decompress` of
that string throws the ReferenceError on the undeclared `test` instead
of restoring the record — the round trip never succeeds. (The loved
line also goes out as the decimal join `"79"`, not 2-glyph codes.) -/
theorem user_roundtrip_broken :
    User.compress ⟨[(2020, [(3, [(5, 2)])])], [7, 9]⟩
        = .ok ("79\n" ++ String.mk [glyph 2020] ++ "\n3052")
    ∧ User.decompress ⟨[], []⟩ ("79\n" ++ String.mk [glyph 2020] ++ "\n3052")
        = .error "ReferenceError: test is not defined" := by
  constructor <;> rfl

/-- C8. The first line of `compress` is `loved.join('')` — decimal,
not 2-glyph radix: for `loved = [7]` (and no stats) the whole output is
`"7"`, one glyph where the claim requires `2·1`; the 2-glyph radix code
of trackId 7 would have been `"07"`. -/
theorem user_loved_line_bug :
    User.compress ⟨[], [7]⟩ = .ok "7"
    ∧ "7".length ≠ 2 * [7].length
    ∧ Radix.fromNumberNat 7 2 = .ok ['0', '7'] := by
  refine ⟨rfl, by decide, rfl⟩
